import Mathlib

/-!
Verification of the local daemon bootstrap and supervisor of the
`reddwallet` repository (`app/scripts/Daemon/Bootstrap.js`), against its
natural-language specification.

The JavaScript source is shallowly embedded below:

* the static platform map `daemonMap` and the pure path resolution
  (`hasValidDaemon`, `initializeFilePath`) become pure Lean functions over
  association lists;
* the settings collection (`NeDB`) becomes a list of records; `findOne`,
  `insert`, `update` and `remove` (multi defaults to false, so at most one
  document is removed) become list operations;
* the asynchronous control flow of `startLocal` becomes an explicit trace
  of actions: the synchronous body runs first; the store operations go
  through NeDB's per-collection executor, which runs queued operations in
  FIFO order of the call that queued them.  The synchronous body queues
  the kill `findOne` and then the save `findOne`; a `remove` or
  `update`/`insert` issued from inside one of those callbacks is queued
  behind everything already in the queue.  The execution order is
  therefore: kill `findOne` (callback attempts the kill and, on success,
  queues the remove), save `findOne` (observes the store still unchanged
  and queues the update or insert), then the remove, then the update or
  insert, and finally the one-shot grace timer.  The repeating
  `setInterval` and the stream listeners are recorded as registrations
  together with the action lists their handler bodies produce.
* the `$q` deferred becomes a one-shot cell: settling an already settled
  deferred is a no-op, every wait observes the stored outcome.
-/

namespace Reddwallet

/-- Embeds `App.Global.Message(result, code, message)`: the uniform
outcome envelope (`succeeded`, `code`, `detail`). -/
structure Message where
  result : Bool
  code : Nat
  message : String
deriving DecidableEq, Repr

/-- Embeds the `linux` table of `daemonMap` (Bootstrap.js lines 33-37). -/
def linuxTable : List (String × String) :=
  [("x32", "daemons/reddcoind-linux32"),
   ("x64", "daemons/reddcoind-linux64"),
   ("default", "daemons/reddcoind-linux32")]

/-- Embeds the `win32` table of `daemonMap` (Bootstrap.js lines 38-41). -/
def win32Table : List (String × String) :=
  [("x32", "daemons/reddcoind-win32"),
   ("default", "daemons/reddcoind-win32")]

/-- Embeds the `darwin` table of `daemonMap` (Bootstrap.js lines 42-46). -/
def darwinTable : List (String × String) :=
  [("x32", "daemons/reddcoind-mac32"),
   ("x64", "daemons/reddcoind-mac32"),
   ("default", "daemons/reddcoind-mac-32")]

/-- Embeds `this.daemonMap` (Bootstrap.js lines 32-47): operating-system
identifier to per-architecture table of executable paths. -/
def daemonMap : List (String × List (String × String)) :=
  [("linux", linuxTable), ("win32", win32Table), ("darwin", darwinTable)]

/-- Embeds `hasValidDaemon` (Bootstrap.js lines 181-184):
`daemonMap[platform] !== undefined`. -/
def hasValidDaemon (osPlatform : String) : Bool :=
  (daemonMap.lookup osPlatform).isSome

/-- Embeds `initializeFilePath` (Bootstrap.js lines 189-204).  The JS
method assigns `this.daemonFilePath` only when the platform is present;
`none` models the field keeping its initial `null`.  When the platform is
present and the architecture has no explicit entry, the table entry named
`default` is used (`platform[osArch] == undefined` falls back to
`platform['default']`). -/
def initFilePath (osPlatform osArch : String) : Option String :=
  match daemonMap.lookup osPlatform with
  | none => none
  | some platform =>
    match platform.lookup osArch with
    | none => platform.lookup "default"
    | some p => some p

/-- Inputs consulted by the pre-flight checks: `os.platform()`,
`os.arch()` and `fs.existsSync`. -/
structure PreEnv where
  platform : String
  arch : String
  fileExists : String → Bool

/-- Embeds `fs.existsSync(this.daemonFilePath)` applied to the nullable
field: `existsSync` of a missing path value is false. -/
def existsSyncOpt (fileExists : String → Bool) : Option String → Bool
  | none => false
  | some p => fileExists p

/-- Embeds `runPreChecks` (Bootstrap.js lines 148-165), returning the
resulting `Message` together with the value of `this.daemonFilePath`
after the call. -/
def runPreChecks (e : PreEnv) : Message × Option String :=
  if !(hasValidDaemon e.platform) then
    (⟨false, 1, "This operating system does not support running the Reddcoin daemon."⟩,
     none)
  else
    let fp := initFilePath e.platform e.arch
    if !(existsSyncOpt e.fileExists fp) then
      (⟨false, 2, "Cannot find the daemon for this operating system: "
          ++ e.platform ++ " " ++ e.arch⟩, fp)
    else
      (⟨true, 0, "Pre-checks complete"⟩, fp)

/-- Embeds one document of the `settings` NeDB collection as used by the
bootstrap: `_id` becomes `rid`, the JS field `type` becomes `rtype`. -/
structure DbRecord where
  rid : Nat
  rtype : String
  pid : Nat
deriving DecidableEq, Repr

/-- Predicate matched by the query `{ "type": "daemon" }`. -/
def isDaemonRec (r : DbRecord) : Bool :=
  r.rtype == "daemon"

/-- Embeds `dbSettings.findOne({ "type": "daemon" }, cb)`: the first
document matching the query, if any. -/
def findOneDaemon (db : List DbRecord) : Option DbRecord :=
  db.find? isDaemonRec

/-- Number of documents of the reserved `daemon` kind in the store. -/
def countDaemon (db : List DbRecord) : Nat :=
  db.countP (fun r => isDaemonRec r)

/-- Embeds `dbSettings.insert(doc)`: appends a new document. -/
def dbInsert (db : List DbRecord) (r : DbRecord) : List DbRecord :=
  db ++ [r]

/-- Embeds `dbSettings.update({_id: i}, { $set: doc })`: replaces the
documents whose `_id` equals `i` (NeDB `_id`s are unique, so at most one
in a well-formed store). -/
def dbUpdateById (db : List DbRecord) (i : Nat) (newRec : DbRecord) : List DbRecord :=
  db.map (fun r => if r.rid == i then newRec else r)

/-- Embeds `dbSettings.remove({"type": "daemon"}, {})`: with the default
`multi: false`, NeDB removes at most one matching document. -/
def dbRemoveDaemon (db : List DbRecord) : List DbRecord :=
  db.eraseP isDaemonRec

/-- Embeds `saveDaemonPid` (Bootstrap.js lines 212-229): `findOne` on the
`daemon` kind; insert a fresh document carrying the spawned pid when none
exists, otherwise update the found document, overwriting its pid.
`freshId` stands for the `_id` NeDB mints for an inserted document. -/
def saveDaemonPid (db : List DbRecord) (newPid : Nat) (freshId : Nat) : List DbRecord :=
  match findOneDaemon db with
  | none => dbInsert db ⟨freshId, "daemon", newPid⟩
  | some doc => dbUpdateById db doc.rid ⟨doc.rid, doc.rtype, newPid⟩

/-- Embeds `killExistingPid` (Bootstrap.js lines 237-254).  `killOk pid`
tells whether `process.kill(pid)` succeeds or throws.  Returns the store
after the callback ran, together with `some (pid, succeeded)` recording
the kill attempt (or `none` when no record existed, in which case the
callback returns early).  Note the source removes the record inside the
`try`, after the kill: when the kill throws, the `catch` only logs and
the record stays. -/
def killExistingPid (db : List DbRecord) (killOk : Nat → Bool) :
    List DbRecord × Option (Nat × Bool) :=
  match findOneDaemon db with
  | none => (db, none)
  | some doc =>
    if killOk doc.pid then
      (dbRemoveDaemon db, some (doc.pid, true))
    else
      (db, some (doc.pid, false))

/-- Observable actions performed by the bootstrap, in execution order. -/
inductive Action where
  | debugLog : String → Action
  | debugMsg : Message → Action
  | debugErr : Action
  | rejectReady : Message → Action
  | resolveReady : Message → Action
  | broadcastBootstrapped : Message → Action
  | chmodExec : String → Action
  | killOsProc : Nat → Action
  | removeDaemonRecord : Action
  | insertRecord : Nat → Action
  | updateRecord : Nat → Action
  | spawnProc : String → Nat → Action
  | blockTick : Action
  | sigtermDaemon : Action
  | windowClosed : Action
  | daemonExited : Action
deriving DecidableEq, Repr

/-- Full environment of one `startLocal` session: platform inputs, the
settings store, whether `process.kill` succeeds per pid, the pid of the
newly spawned child and the `_id` NeDB would mint on insert. -/
structure SessionEnv where
  platform : String
  arch : String
  fileExists : String → Bool
  db : List DbRecord
  killOk : Nat → Bool
  newPid : Nat
  freshId : Nat

/-- Pre-flight view of a session environment. -/
def SessionEnv.pre (e : SessionEnv) : PreEnv :=
  ⟨e.platform, e.arch, e.fileExists⟩

/-- Embeds the message built in the grace-period timeout callback
(Bootstrap.js line 81): `new App.Global.Message(true, 0, 'Daemon Ready')`. -/
def readyMessage : Message := ⟨true, 0, "Daemon Ready"⟩

/-- Actions performed while the kill `findOne` callback itself runs:
return early without a record; otherwise attempt the kill (the `remove`
it issues on success is only queued on the store executor, behind the
already-queued save `findOne`, and executes later); on a throw the
`catch` logs the error. -/
def killCbActions (db : List DbRecord) (killOk : Nat → Bool) : List Action :=
  match findOneDaemon db with
  | none => []
  | some doc =>
    if killOk doc.pid then
      [Action.killOsProc doc.pid]
    else
      [Action.killOsProc doc.pid, Action.debugErr]

/-- Store operation queued by the kill callback, executed after the save
`findOne`: the remove, exactly when a record was found and the kill did
not throw. -/
def killQueuedOps (db : List DbRecord) (killOk : Nat → Bool) : List Action :=
  match findOneDaemon db with
  | none => []
  | some doc =>
    if killOk doc.pid then [Action.removeDaemonRecord] else []

/-- Store operation queued by the save `findOne` callback, based on the
document that callback observed — the store is still unchanged when it
runs, because the kill callback's remove sits behind it in the executor
queue. -/
def saveQueuedOp (db : List DbRecord) (newPid : Nat) : List Action :=
  match findOneDaemon db with
  | none => [Action.insertRecord newPid]
  | some _ => [Action.updateRecord newPid]

/-- Store state once the executor queue drained.  Both `findOne`s read
the original store.  When a record exists and its kill succeeded, the
remove (queued by the kill callback) executes first and deletes the
record, and the update queued by the save callback then targets the
deleted document's id — NeDB `update` without upsert matches nothing, so
it is a no-op on a store with unique ids.  When the kill threw, no
remove was queued and the update overwrites the record's pid.  When no
record existed, the kill callback returned early and the save callback
queued an insert. -/
def sessionFinalDb (db : List DbRecord) (killOk : Nat → Bool) (newPid freshId : Nat) :
    List DbRecord :=
  match findOneDaemon db with
  | none => dbInsert db ⟨freshId, "daemon", newPid⟩
  | some doc =>
    if killOk doc.pid then
      dbUpdateById (dbRemoveDaemon db) doc.rid ⟨doc.rid, doc.rtype, newPid⟩
    else
      dbUpdateById db doc.rid ⟨doc.rid, doc.rtype, newPid⟩

/-- Actions of the stdout `data` listener (Bootstrap.js lines 106-109):
log, then publish the block notification. -/
def stdoutDataBody : List Action :=
  [Action.debugLog "Received daemon data from stdout", Action.blockTick]

/-- Actions of the repeating `setInterval` callback (Bootstrap.js lines
93-95): publish the block notification, unconditionally. -/
def intervalBodyActions : List Action :=
  [Action.blockTick]

/-- Result of one `startLocal` session: the pre-flight outcome, the
ordered action trace (synchronous body, then the two queued database
callbacks in FIFO order, then the grace timer callback), the settings
store once all callbacks ran, what was spawned, and the registered
timers and listener bodies. -/
structure SessionResult where
  outcome : Message
  trace : List Action
  finalDb : List DbRecord
  spawned : Option (String × Nat)
  graceDelay : Option Nat
  intervalPeriod : Option Nat
  intervalBody : List Action
  stdoutBody : List Action

/-- Shared failure branch of `startLocal` (Bootstrap.js lines 62-69):
log, reject the deferred, broadcast the failure; nothing is spawned, no
timer is registered and the store is untouched. -/
def failResult (env : SessionEnv) (m : Message) : SessionResult :=
  { outcome := m
    trace := [Action.debugLog m.message, Action.rejectReady m,
              Action.broadcastBootstrapped m]
    finalDb := env.db
    spawned := none
    graceDelay := none
    intervalPeriod := none
    intervalBody := []
    stdoutBody := [] }

/-- Embeds `startLocal` (Bootstrap.js lines 57-98) together with the
callbacks it queues.  On a passing pre-flight: `runOsSpecificTasks`
(chmod unless the platform is `win32`), `killExistingPid` (queues its
`findOne` on the store executor), `spawnDaemon` (synchronous spawn, then
`saveDaemonPid` queues its `findOne` behind it), `setupDaemonListeners`
(registrations only), the 1500 time-unit one-shot grace timer, and the
15 * 1000 time-unit repeating interval.  The executor then drains in
FIFO order of queueing: the kill `findOne` callback (kill attempt; on
success it queues the remove at the back of the queue), the save
`findOne` callback (observes the store still unchanged, queues the
update or insert), the remove, the update or insert; the grace timer
callback (broadcast, resolve, log) fires after all store operations. -/
def startLocalRun (env : SessionEnv) : SessionResult :=
  let pre := runPreChecks env.pre
  let m := pre.1
  if m.result then
    match pre.2 with
      | none => failResult env m
      | some p =>
        { outcome := m
          trace :=
            (if env.platform == "win32" then [] else [Action.chmodExec p])
            ++ [Action.spawnProc p env.newPid]
            ++ killCbActions env.db env.killOk
            ++ killQueuedOps env.db env.killOk
            ++ saveQueuedOp env.db env.newPid
            ++ [Action.broadcastBootstrapped readyMessage,
                Action.resolveReady readyMessage,
                Action.debugMsg readyMessage]
          finalDb := sessionFinalDb env.db env.killOk env.newPid env.freshId
          spawned := some (p, env.newPid)
          graceDelay := some 1500
          intervalPeriod := some (15 * 1000)
          intervalBody := intervalBodyActions
          stdoutBody := stdoutDataBody }
  else
    failResult env m

/-- State of the `$q` deferred owned by the bootstrap. -/
inductive DefState where
  | pending : DefState
  | settled : Message → DefState
deriving DecidableEq, Repr

/-- Settling a `$q` deferred: the first resolution or rejection fixes
the outcome; settling an already settled deferred is a no-op. -/
def settleD (st : DefState) (m : Message) : DefState :=
  match st with
  | DefState.pending => DefState.settled m
  | DefState.settled m0 => DefState.settled m0

/-- Effect of one action on the deferred: only `resolve` and `reject`
touch it. -/
def stepDef (st : DefState) (a : Action) : DefState :=
  match a with
  | Action.resolveReady m => settleD st m
  | Action.rejectReady m => settleD st m
  | _ => st

/-- Deferred state after a trace, starting pending. -/
def runDef (tr : List Action) : DefState :=
  tr.foldl stepDef DefState.pending

/-- Embeds `getPromise` (Bootstrap.js lines 261-263): every caller gets
the same deferred. -/
def getPromise (deferred : DefState) : DefState := deferred

/-- Waiting on the deferred: the settled outcome, if any.  Waiting does
not change the state, so repeated waits observe the same value. -/
def awaitD : DefState → Option Message
  | DefState.pending => none
  | DefState.settled m => some m

/-- Whether an action settles the deferred. -/
def isSettleA : Action → Bool
  | Action.resolveReady _ => true
  | Action.rejectReady _ => true
  | _ => false

/-- Number of deferred settlements in a trace. -/
def settleCount (tr : List Action) : Nat :=
  tr.countP (fun a => isSettleA a)

/-- Whether an action is the process spawn. -/
def isSpawnA : Action → Bool
  | Action.spawnProc _ _ => true
  | _ => false

/-- Whether an action is a `process.kill` attempt. -/
def isKillA : Action → Bool
  | Action.killOsProc _ => true
  | _ => false

/-- Whether an action is purely a log (observable side effect free for
the lifecycle). -/
def isDebugA : Action → Bool
  | Action.debugLog _ => true
  | Action.debugMsg _ => true
  | Action.debugErr => true
  | _ => false

/-- Ordering property of a session trace: somewhere in it the new
process is spawned, the very next action is the kill attempt on the
stale pid, and the readiness resolution comes later still. -/
def spawnThenKillThenResolve (tr : List Action) (p : String) (newPid stalePid : Nat) : Prop :=
  ∃ l1 l2, tr = l1 ++ Action.spawnProc p newPid :: Action.killOsProc stalePid :: l2 ∧
    Action.resolveReady readyMessage ∈ l2

/-- Embeds the `win.on('close')` handler (Bootstrap.js lines 116-122):
synchronously send SIGTERM to the daemon, then close the window with
`this.close(true)`.  `later` carries whatever asynchronous events (the
daemon exit and its handlers) are delivered afterwards. -/
def onWinCloseTrace (later : List Action) : List Action :=
  [Action.sigtermDaemon, Action.windowClosed] ++ later

/-- Actions of the daemon `close` listener (Bootstrap.js lines 124-126):
it only logs. -/
def daemonCloseBody : List Action :=
  [Action.debugLog "Daemon child process has ended."]

/-- Model of when the repeating `setInterval` callback runs: with period
`p` it fires at `p`, `2 * p`, `3 * p`, and so on. -/
def intervalFires (p t : Nat) : Bool :=
  decide (0 < t) && decide (t % p = 0)

/-- Model of the post-spawn steady state: the block notification is
published at an instant when the 15 * 1000 period interval fires there,
or when a stdout data event arrives there (the data listener publishes
on every data event). -/
def blockPublishedAt (stdoutAt : Nat → Bool) (t : Nat) : Bool :=
  intervalFires (15 * 1000) t || stdoutAt t

/-- Store holding one stale record of the reserved `daemon` kind. -/
def db0 : List DbRecord := [⟨1, "daemon", 1234⟩]

/-- Environment where `process.kill` always throws (stale pid dead). -/
def neverKill : Nat → Bool := fun _ => false

/-- Environment where `process.kill` always succeeds. -/
def alwaysKill : Nat → Bool := fun _ => true

/-- Filesystem on which every path exists. -/
def allFilesExist : String → Bool := fun _ => true

/-- Session on linux x64 with a stale record whose pid can no longer be
killed. -/
def env0 : SessionEnv := ⟨"linux", "x64", allFilesExist, db0, neverKill, 4321, 7⟩

/-- Session on linux x64 with a stale record whose kill succeeds. -/
def envKillOk : SessionEnv := ⟨"linux", "x64", allFilesExist, db0, alwaysKill, 4321, 7⟩

/-- Session on linux x64 with no prior record in the store. -/
def envNoPrior : SessionEnv := ⟨"linux", "x64", allFilesExist, [], neverKill, 4321, 7⟩

/-- Session on an unsupported operating system. -/
def plan9Env : SessionEnv := ⟨"plan9", "x64", allFilesExist, db0, alwaysKill, 77, 5⟩

/-- Session on darwin where the resolved executable is absent on disk. -/
def darwinMissingEnv : SessionEnv := ⟨"darwin", "x64", fun _ => false, [], alwaysKill, 77, 5⟩

lemma daemonMap_lookup_cases (os : String) (table : List (String × String))
    (h : daemonMap.lookup os = some table) :
    table = linuxTable ∨ table = win32Table ∨ table = darwinTable := by
  simp only [daemonMap, List.lookup] at h
  split at h
  · exact Or.inl (Option.some.inj h).symm
  · split at h
    · exact Or.inr (Or.inl (Option.some.inj h).symm)
    · split at h
      · exact Or.inr (Or.inr (Option.some.inj h).symm)
      · exact Option.noConfusion h

/-- C7: for every operating system present in the platform mapping and
every architecture identifier, resolution succeeds; when the
architecture has an explicit entry the resolved path is that entry, and
otherwise it is the table's `default` entry. -/
theorem C7_arch_fallback (os arch : String) (table : List (String × String))
    (h : daemonMap.lookup os = some table) :
    (initFilePath os arch).isSome = true ∧
    (∀ p, table.lookup arch = some p → initFilePath os arch = some p) ∧
    (table.lookup arch = none → initFilePath os arch = table.lookup "default") := by
  have hdef : (table.lookup "default").isSome = true := by
    rcases daemonMap_lookup_cases os table h with h1 | h1 | h1 <;> subst h1 <;> decide
  refine ⟨?_, ?_, ?_⟩
  · cases htab : table.lookup arch with
    | none => simpa [initFilePath, h, htab] using hdef
    | some p => simp [initFilePath, h, htab]
  · intro p hp
    simp [initFilePath, h, hp]
  · intro hnone
    simp [initFilePath, h, hnone]

/-- Witness for C7 at a concrete input: darwin with the unlisted
architecture arm64 resolves to the darwin `default` entry, and x64
resolves to its explicit entry. -/
theorem C7_arch_fallback_witness :
    initFilePath "darwin" "arm64" = some "daemons/reddcoind-mac-32" ∧
    initFilePath "darwin" "x64" = some "daemons/reddcoind-mac32" := by
  constructor
  · have h := (C7_arch_fallback "darwin" "arm64" darwinTable rfl).2.2 (by decide)
    rw [h]; rfl
  · exact (C7_arch_fallback "darwin" "x64" darwinTable rfl).2.1 _ (by decide)

/-- C10: the darwin `default` path differs from the path of every
explicitly listed darwin architecture, so resolution on darwin with an
unlisted architecture yields a path distinct from every listed one. -/
theorem C10_darwin_default_distinct :
    darwinTable.lookup "default" = some "daemons/reddcoind-mac-32" ∧
    darwinTable.lookup "x32" = some "daemons/reddcoind-mac32" ∧
    darwinTable.lookup "x64" = some "daemons/reddcoind-mac32" ∧
    initFilePath "darwin" "arm64" = some "daemons/reddcoind-mac-32" ∧
    initFilePath "darwin" "arm64" ≠ initFilePath "darwin" "x32" ∧
    initFilePath "darwin" "arm64" ≠ initFilePath "darwin" "x64" ∧
    ("daemons/reddcoind-mac-32" : String) ≠ "daemons/reddcoind-mac32" := by
  decide

/-- C5: for every operating-system identifier absent from the platform
mapping, pre-flight fails with the code 1 outcome, the remaining checks
are short-circuited (the result does not depend on the filesystem), no
daemon is spawned, no interval is registered, the PID store is not
written, and the readiness deferred is rejected with that outcome. -/
theorem C5_unsupported_platform (env : SessionEnv)
    (h : daemonMap.lookup env.platform = none) :
    (startLocalRun env).outcome =
      ⟨false, 1, "This operating system does not support running the Reddcoin daemon."⟩ ∧
    (startLocalRun env).spawned = none ∧
    (startLocalRun env).finalDb = env.db ∧
    (startLocalRun env).intervalPeriod = none ∧
    (∀ f : String → Bool, runPreChecks ⟨env.platform, env.arch, f⟩ = runPreChecks env.pre) ∧
    runDef (startLocalRun env).trace = DefState.settled (startLocalRun env).outcome := by
  have hpre : ∀ f : String → Bool, runPreChecks ⟨env.platform, env.arch, f⟩ =
      (⟨false, 1, "This operating system does not support running the Reddcoin daemon."⟩,
       none) := by
    intro f
    simp [runPreChecks, hasValidDaemon, h]
  have hpre0 : runPreChecks env.pre =
      (⟨false, 1, "This operating system does not support running the Reddcoin daemon."⟩,
       none) := hpre env.fileExists
  refine ⟨?_, ?_, ?_, ?_, ?_, ?_⟩ <;>
    simp [startLocalRun, hpre0, hpre, failResult, runDef, stepDef, settleD, SessionEnv.pre]

/-- Witness for C5 at the concrete unsupported identifier plan9. -/
theorem C5_unsupported_platform_witness :
    (startLocalRun plan9Env).outcome =
      ⟨false, 1, "This operating system does not support running the Reddcoin daemon."⟩ ∧
    (startLocalRun plan9Env).spawned = none ∧
    (startLocalRun plan9Env).finalDb = plan9Env.db :=
  ⟨(C5_unsupported_platform plan9Env rfl).1,
   (C5_unsupported_platform plan9Env rfl).2.1,
   (C5_unsupported_platform plan9Env rfl).2.2.1⟩

/-- C6: on a supported operating system whose resolved executable path
does not exist on disk, pre-flight fails with the code 2 outcome whose
detail carries the platform and architecture strings, nothing is
spawned, the PID store is untouched, and the readiness deferred is
rejected with that outcome. -/
theorem C6_executable_missing (env : SessionEnv) (p : String)
    (hp : initFilePath env.platform env.arch = some p)
    (hne : env.fileExists p = false) :
    (startLocalRun env).outcome =
      ⟨false, 2, "Cannot find the daemon for this operating system: "
        ++ env.platform ++ " " ++ env.arch⟩ ∧
    (startLocalRun env).spawned = none ∧
    (startLocalRun env).finalDb = env.db ∧
    (startLocalRun env).intervalPeriod = none ∧
    runDef (startLocalRun env).trace = DefState.settled (startLocalRun env).outcome := by
  have hsup : hasValidDaemon env.platform = true := by
    unfold initFilePath at hp
    unfold hasValidDaemon
    cases hh : daemonMap.lookup env.platform with
    | none => rw [hh] at hp; exact Option.noConfusion hp
    | some t => simp
  have hpre0 : runPreChecks env.pre =
      (⟨false, 2, "Cannot find the daemon for this operating system: "
        ++ env.platform ++ " " ++ env.arch⟩, some p) := by
    simp [runPreChecks, SessionEnv.pre, hsup, hp, existsSyncOpt, hne]
  refine ⟨?_, ?_, ?_, ?_, ?_⟩ <;>
    simp [startLocalRun, hpre0, failResult, runDef, stepDef, settleD]

/-- Witness for C6 at a concrete input: darwin x64 with an empty
filesystem. -/
theorem C6_executable_missing_witness :
    (startLocalRun darwinMissingEnv).outcome =
      ⟨false, 2, "Cannot find the daemon for this operating system: "
        ++ "darwin" ++ " " ++ "x64"⟩ ∧
    (startLocalRun darwinMissingEnv).spawned = none ∧
    (startLocalRun darwinMissingEnv).finalDb = darwinMissingEnv.db :=
  ⟨(C6_executable_missing darwinMissingEnv "daemons/reddcoind-mac32" rfl rfl).1,
   (C6_executable_missing darwinMissingEnv "daemons/reddcoind-mac32" rfl rfl).2.1,
   (C6_executable_missing darwinMissingEnv "daemons/reddcoind-mac32" rfl rfl).2.2.1⟩

/-- C1 as stated is false on the code: with a stale record whose pid can
no longer be killed, the kill attempt is made and fails, and the record
is NOT removed from the store (the `remove` sits inside the `try`, after
the throwing `process.kill`). -/
theorem C1_counterexample :
    findOneDaemon db0 = some ⟨1, "daemon", 1234⟩ ∧
    (killExistingPid db0 neverKill).2 = some (1234, false) ∧
    (killExistingPid db0 neverKill).1 = db0 ∧
    findOneDaemon (killExistingPid db0 neverKill).1 = some ⟨1, "daemon", 1234⟩ := by
  decide

lemma find_eraseP_none (l : List DbRecord) (doc : DbRecord)
    (hfind : l.find? isDaemonRec = some doc)
    (hcount : l.countP (fun r => isDaemonRec r) ≤ 1) :
    (l.eraseP isDaemonRec).find? isDaemonRec = none := by
  induction l with
  | nil => exact Option.noConfusion hfind
  | cons a tl ih =>
    by_cases ha : isDaemonRec a
    · rw [List.eraseP_cons_of_pos ha]
      have hc : (a :: tl).countP (fun r => isDaemonRec r) =
          tl.countP (fun r => isDaemonRec r) + 1 :=
        List.countP_cons_of_pos (fun r => isDaemonRec r) tl ha
      rw [hc] at hcount
      have h0 : tl.countP (fun r => isDaemonRec r) = 0 := by omega
      rw [List.find?_eq_none]
      intro x hx
      exact (List.countP_eq_zero.mp h0) x hx
    · rw [List.eraseP_cons_of_neg ha]
      rw [List.find?_cons_of_neg _ ha] at hfind
      have hc : (a :: tl).countP (fun r => isDaemonRec r) =
          tl.countP (fun r => isDaemonRec r) :=
        List.countP_cons_of_neg (fun r => isDaemonRec r) tl ha
      rw [hc] at hcount
      rw [List.find?_cons_of_neg _ ha]
      exact ih hfind hcount

/-- C1 amended: if a record exists at startup the supervisor attempts to
kill that pid, and the record is removed exactly when the kill succeeds;
when the kill attempt throws, the record stays in the store. -/
theorem C1_kill_clear_amended (db : List DbRecord) (killOk : Nat → Bool) (doc : DbRecord)
    (hfind : findOneDaemon db = some doc)
    (hcount : countDaemon db ≤ 1) :
    (killExistingPid db killOk).2 = some (doc.pid, killOk doc.pid) ∧
    findOneDaemon (killExistingPid db killOk).1 =
      (if killOk doc.pid then none else some doc) := by
  have hke : killExistingPid db killOk =
      (if killOk doc.pid then (dbRemoveDaemon db, some (doc.pid, true))
       else (db, some (doc.pid, false))) := by
    unfold killExistingPid
    rw [hfind]
  cases hk : killOk doc.pid with
  | true =>
    rw [hke, hk, if_pos rfl, if_pos rfl]
    exact ⟨rfl, find_eraseP_none db doc hfind hcount⟩
  | false =>
    rw [hke, hk, if_neg Bool.false_ne_true, if_neg Bool.false_ne_true]
    exact ⟨rfl, hfind⟩

/-- Witness for the amended C1 at concrete inputs: with a killable stale
pid the record is cleared, with an un-killable one it stays. -/
theorem C1_kill_clear_amended_witness :
    ((killExistingPid db0 alwaysKill).2 = some (1234, true) ∧
      findOneDaemon (killExistingPid db0 alwaysKill).1 = none) ∧
    ((killExistingPid db0 neverKill).2 = some (1234, false) ∧
      findOneDaemon (killExistingPid db0 neverKill).1 = some ⟨1, "daemon", 1234⟩) := by
  constructor
  · have h := C1_kill_clear_amended db0 alwaysKill ⟨1, "daemon", 1234⟩ (by decide) (by decide)
    simpa using h
  · have h := C1_kill_clear_amended db0 neverKill ⟨1, "daemon", 1234⟩ (by decide) (by decide)
    simpa using h

lemma runPreChecks_true_some (e : PreEnv)
    (h : ((runPreChecks e).1).result = true) :
    ∃ p, (runPreChecks e).2 = some p ∧ initFilePath e.platform e.arch = some p := by
  by_cases hv : hasValidDaemon e.platform
  · cases hfp : initFilePath e.platform e.arch with
    | none => simp [runPreChecks, hv, hfp, existsSyncOpt] at h
    | some p =>
      cases hex : e.fileExists p with
      | false => simp [runPreChecks, hv, hfp, existsSyncOpt, hex] at h
      | true =>
        refine ⟨p, ?_, rfl⟩
        simp [runPreChecks, hv, hfp, existsSyncOpt, hex]
  · simp [runPreChecks, hv] at h

/-- C2 as stated is false on the code: in a concrete session with a
prior record, the kill attempt of the reaping step occurs in the trace,
the spawn occurs, and the kill attempt does NOT precede the spawn —
`killExistingPid` only queues an asynchronous store lookup, and
`spawnDaemon` runs synchronously before that callback fires. -/
theorem C2_counterexample :
    (startLocalRun env0).trace.any isKillA = true ∧
    (startLocalRun env0).trace.any isSpawnA = true ∧
    ¬ ((startLocalRun env0).trace.findIdx isKillA <
        (startLocalRun env0).trace.findIdx isSpawnA) := by
  decide

/-- C2 amended: the reaping lookup is initiated before the spawn call,
but because the store lookup is asynchronous the kill attempt executes
immediately after the new process is spawned (and still before the
readiness resolution fires). -/
theorem C2_reap_after_spawn_amended (env : SessionEnv) (doc : DbRecord) (p : String)
    (hpre : ((runPreChecks env.pre).1).result = true)
    (hp : (runPreChecks env.pre).2 = some p)
    (hdoc : findOneDaemon env.db = some doc) :
    spawnThenKillThenResolve (startLocalRun env).trace p env.newPid doc.pid := by
  have hkt : killCbActions env.db env.killOk =
      Action.killOsProc doc.pid ::
        (if env.killOk doc.pid then [] else [Action.debugErr]) := by
    cases hk : env.killOk doc.pid <;>
      simp [killCbActions, hdoc, hk]
  refine ⟨(if env.platform == "win32" then [] else [Action.chmodExec p]),
    (if env.killOk doc.pid then [] else [Action.debugErr])
      ++ killQueuedOps env.db env.killOk
      ++ saveQueuedOp env.db env.newPid
      ++ [Action.broadcastBootstrapped readyMessage,
          Action.resolveReady readyMessage,
          Action.debugMsg readyMessage], ?_, ?_⟩
  · simp [startLocalRun, hpre, hp, hkt]
  · simp

/-- Witness for the amended C2 at a concrete session: linux x64 with a
stale record carrying pid 1234 and a fresh spawn with pid 4321. -/
theorem C2_reap_after_spawn_amended_witness :
    spawnThenKillThenResolve (startLocalRun env0).trace
      "daemons/reddcoind-linux64" 4321 1234 :=
  C2_reap_after_spawn_amended env0 ⟨1, "daemon", 1234⟩ "daemons/reddcoind-linux64"
    (by decide) (by decide) (by decide)

/-- C3 as stated is false on the code: in the close-handler trace the
window-close action occurs, the daemon-exit event occurs, and the
daemon-exit event does NOT precede the window close — the handler calls
the window close synchronously right after sending SIGTERM, without
waiting for the exit callback. -/
theorem C3_counterexample :
    Action.windowClosed ∈ onWinCloseTrace (Action.daemonExited :: daemonCloseBody) ∧
    Action.daemonExited ∈ onWinCloseTrace (Action.daemonExited :: daemonCloseBody) ∧
    ¬ ((onWinCloseTrace (Action.daemonExited :: daemonCloseBody)).findIdx
          (fun a => a == Action.daemonExited) <
        (onWinCloseTrace (Action.daemonExited :: daemonCloseBody)).findIdx
          (fun a => a == Action.windowClosed)) := by
  decide

/-- C3 amended: on the window-close request the supervisor sends the
termination signal as its first action and closes the window as its
second, immediately, so every daemon-exit event delivered afterwards
(all of `later`) comes strictly after the window close; the daemon exit
listener itself only logs. -/
theorem C3_close_no_wait_amended (later : List Action) :
    (onWinCloseTrace later).findIdx (fun a => a == Action.sigtermDaemon) = 0 ∧
    (onWinCloseTrace later).findIdx (fun a => a == Action.windowClosed) = 1 ∧
    (onWinCloseTrace later).drop 2 = later ∧
    daemonCloseBody.all isDebugA = true := by
  refine ⟨rfl, rfl, rfl, rfl⟩

lemma stepDef_no_settle (st : DefState) (a : Action) (h : isSettleA a = false) :
    stepDef st a = st := by
  cases a <;> simp_all [isSettleA, stepDef]

lemma foldl_stepDef_id (tr : List Action) (h : ∀ a ∈ tr, isSettleA a = false)
    (st : DefState) : tr.foldl stepDef st = st := by
  induction tr generalizing st with
  | nil => rfl
  | cons a tl ih =>
    rw [List.foldl_cons, stepDef_no_settle st a (h a (by simp))]
    exact ih (fun b hb => h b (by simp [hb])) st

lemma killCbActions_no_settle (db : List DbRecord) (k : Nat → Bool) :
    ∀ a ∈ killCbActions db k, isSettleA a = false := by
  unfold killCbActions
  cases findOneDaemon db with
  | none => simp
  | some doc =>
    cases hk : k doc.pid <;> simp [hk, isSettleA]

lemma killQueuedOps_no_settle (db : List DbRecord) (k : Nat → Bool) :
    ∀ a ∈ killQueuedOps db k, isSettleA a = false := by
  unfold killQueuedOps
  cases findOneDaemon db with
  | none => simp
  | some doc =>
    cases hk : k doc.pid <;> simp [hk, isSettleA]

lemma saveQueuedOp_no_settle (db : List DbRecord) (newPid : Nat) :
    ∀ a ∈ saveQueuedOp db newPid, isSettleA a = false := by
  unfold saveQueuedOp
  cases findOneDaemon db with
  | none => simp [isSettleA]
  | some doc => simp [isSettleA]

lemma countP_settle_zero (tr : List Action) (h : ∀ a ∈ tr, isSettleA a = false) :
    settleCount tr = 0 := by
  unfold settleCount
  rw [List.countP_eq_zero]
  intro a ha
  simp [h a ha]

/-- C4: the readiness deferred is settled exactly once per session —
rejected with the pre-flight failure outcome when pre-flight fails, and
resolved with the ready outcome by the grace timer otherwise; once
settled, any further settling attempt leaves the stored outcome
unchanged, and waiting on the promise returned by `getPromise` always
observes that one outcome. -/
theorem C4_readiness_resolved_once (env : SessionEnv) :
    settleCount (startLocalRun env).trace = 1 ∧
    runDef (startLocalRun env).trace =
      DefState.settled
        (if ((runPreChecks env.pre).1).result then readyMessage
         else (runPreChecks env.pre).1) ∧
    (∀ m, settleD (runDef (startLocalRun env).trace) m = runDef (startLocalRun env).trace) ∧
    awaitD (getPromise (runDef (startLocalRun env).trace)) =
      some (if ((runPreChecks env.pre).1).result then readyMessage
            else (runPreChecks env.pre).1) := by
  cases hpre : ((runPreChecks env.pre).1).result with
  | false =>
    have htr : (startLocalRun env).trace =
        [Action.debugLog ((runPreChecks env.pre).1).message,
         Action.rejectReady (runPreChecks env.pre).1,
         Action.broadcastBootstrapped (runPreChecks env.pre).1] := by
      simp [startLocalRun, hpre, failResult]
    rw [htr]
    refine ⟨?_, ?_, ?_, ?_⟩
    · simp [settleCount, List.countP, List.countP.go, isSettleA]
    · simp [runDef, stepDef, settleD]
    · intro m
      simp [runDef, stepDef, settleD]
    · simp [runDef, stepDef, settleD, awaitD, getPromise]
  | true =>
    obtain ⟨p, hp2, _⟩ := runPreChecks_true_some env.pre hpre
    have htr : (startLocalRun env).trace =
        ((if env.platform == "win32" then [] else [Action.chmodExec p])
          ++ [Action.spawnProc p env.newPid]
          ++ killCbActions env.db env.killOk
          ++ killQueuedOps env.db env.killOk
          ++ saveQueuedOp env.db env.newPid)
        ++ [Action.broadcastBootstrapped readyMessage,
            Action.resolveReady readyMessage,
            Action.debugMsg readyMessage] := by
      simp [startLocalRun, hpre, hp2]
    have hpref : ∀ a ∈ ((if env.platform == "win32" then [] else [Action.chmodExec p])
          ++ [Action.spawnProc p env.newPid]
          ++ killCbActions env.db env.killOk
          ++ killQueuedOps env.db env.killOk
          ++ saveQueuedOp env.db env.newPid),
        isSettleA a = false := by
      intro a ha
      simp only [List.mem_append] at ha
      rcases ha with (((h1 | h2) | h3) | h4) | h5
      · cases hw : env.platform == "win32" with
        | true => rw [hw] at h1; simp at h1
        | false =>
          rw [hw] at h1
          simp at h1
          simp [h1, isSettleA]
      · simp only [List.mem_singleton] at h2
        simp [h2, isSettleA]
      · exact killCbActions_no_settle env.db env.killOk a h3
      · exact killQueuedOps_no_settle env.db env.killOk a h4
      · exact saveQueuedOp_no_settle env.db env.newPid a h5
    have hrd : runDef (startLocalRun env).trace = DefState.settled readyMessage := by
      rw [htr]
      unfold runDef
      rw [List.foldl_append, foldl_stepDef_id _ hpref]
      rfl
    refine ⟨?_, ?_, ?_, ?_⟩
    · rw [htr]
      unfold settleCount
      rw [List.countP_append]
      have h0 := countP_settle_zero _ hpref
      unfold settleCount at h0
      rw [h0]
      rfl
    · simpa using hrd
    · intro m
      rw [hrd]
      rfl
    · rw [hrd]
      rfl

lemma updateById_daemon (db : List DbRecord) (doc : DbRecord) (newPid : Nat)
    (hfind : db.find? isDaemonRec = some doc)
    (hnodup : (db.map DbRecord.rid).Nodup)
    (hcount : db.countP (fun r => isDaemonRec r) ≤ 1) :
    (dbUpdateById db doc.rid ⟨doc.rid, doc.rtype, newPid⟩).countP (fun r => isDaemonRec r) = 1 ∧
    ∀ r ∈ dbUpdateById db doc.rid ⟨doc.rid, doc.rtype, newPid⟩,
      isDaemonRec r = true → r.pid = newPid := by
  induction db with
  | nil => exact Option.noConfusion hfind
  | cons a tl ih =>
    have hnodup' := List.nodup_cons.mp hnodup
    by_cases ha : isDaemonRec a
    · have hdoc : doc = a := by
        rw [List.find?_cons_of_pos _ ha] at hfind
        exact (Option.some.inj hfind).symm
      subst hdoc
      have htl : dbUpdateById tl doc.rid ⟨doc.rid, doc.rtype, newPid⟩ = tl := by
        unfold dbUpdateById
        rw [List.map_congr_left, List.map_id]
        intro r hr
        have hrne : r.rid ≠ doc.rid := by
          intro he
          exact hnodup'.1 (he ▸ List.mem_map_of_mem DbRecord.rid hr)
        simp [hrne]
      have hhead : dbUpdateById (doc :: tl) doc.rid ⟨doc.rid, doc.rtype, newPid⟩ =
          (⟨doc.rid, doc.rtype, newPid⟩ : DbRecord) :: tl := by
        unfold dbUpdateById
        simp only [List.map_cons]
        rw [show ((if doc.rid == doc.rid then (⟨doc.rid, doc.rtype, newPid⟩ : DbRecord)
            else doc) = ⟨doc.rid, doc.rtype, newPid⟩) from by simp]
        have := htl
        unfold dbUpdateById at this
        rw [this]
      rw [hhead]
      have hcz : tl.countP (fun r => isDaemonRec r) = 0 := by
        have hc : (doc :: tl).countP (fun r => isDaemonRec r) =
            tl.countP (fun r => isDaemonRec r) + 1 :=
          List.countP_cons_of_pos (fun r => isDaemonRec r) tl ha
        rw [hc] at hcount
        omega
      have hnd : isDaemonRec (⟨doc.rid, doc.rtype, newPid⟩ : DbRecord) = true := by
        simpa [isDaemonRec] using ha
      constructor
      · rw [List.countP_cons_of_pos (fun r => isDaemonRec r) tl hnd, hcz]
      · intro r hr hdr
        rcases List.mem_cons.mp hr with h1 | h2
        · rw [h1]
        · exact absurd hdr (by simpa using (List.countP_eq_zero.mp hcz) r h2)
    · have hfind' : tl.find? isDaemonRec = some doc := by
        rw [List.find?_cons_of_neg _ ha] at hfind
        exact hfind
      have hdocmem : doc ∈ tl := List.mem_of_find?_eq_some hfind'
      have hane : a.rid ≠ doc.rid := by
        intro he
        exact hnodup'.1 (he ▸ List.mem_map_of_mem DbRecord.rid hdocmem)
      have hcount' : tl.countP (fun r => isDaemonRec r) ≤ 1 := by
        have hc : (a :: tl).countP (fun r => isDaemonRec r) =
            tl.countP (fun r => isDaemonRec r) :=
          List.countP_cons_of_neg (fun r => isDaemonRec r) tl ha
        rw [hc] at hcount
        exact hcount
      have hih := ih hfind' hnodup'.2 hcount'
      have hhead : dbUpdateById (a :: tl) doc.rid ⟨doc.rid, doc.rtype, newPid⟩ =
          a :: dbUpdateById tl doc.rid ⟨doc.rid, doc.rtype, newPid⟩ := by
        unfold dbUpdateById
        simp [hane]
      rw [hhead]
      constructor
      · rw [List.countP_cons_of_neg (fun r => isDaemonRec r) _ ha]
        exact hih.1
      · intro r hr hdr
        rcases List.mem_cons.mp hr with h1 | h2
        · exact absurd hdr (by simp [h1, ha])
        · exact hih.2 r h2 hdr

lemma saveDaemonPid_spec (db : List DbRecord) (newPid freshId : Nat)
    (hnodup : (db.map DbRecord.rid).Nodup)
    (hcount : countDaemon db ≤ 1) :
    countDaemon (saveDaemonPid db newPid freshId) = 1 ∧
    ∀ r ∈ saveDaemonPid db newPid freshId, isDaemonRec r = true → r.pid = newPid := by
  unfold saveDaemonPid
  cases hf : findOneDaemon db with
  | none =>
    have hz : db.countP (fun r => isDaemonRec r) = 0 := by
      rw [List.countP_eq_zero]
      intro r hr
      have := List.find?_eq_none.mp hf r hr
      simpa using this
    constructor
    · unfold countDaemon dbInsert
      rw [List.countP_append, hz]
      rfl
    · intro r hr hdr
      rcases List.mem_append.mp hr with h1 | h2
      · exact absurd hdr (by simpa using (List.countP_eq_zero.mp hz) r h1)
      · simp only [List.mem_singleton] at h2
        rw [h2]
  | some doc =>
    exact updateById_daemon db doc newPid hf hnodup hcount

lemma update_erase_id (db : List DbRecord) (doc : DbRecord) (newPid : Nat)
    (hfind : db.find? isDaemonRec = some doc)
    (hnodup : (db.map DbRecord.rid).Nodup) :
    dbUpdateById (db.eraseP isDaemonRec) doc.rid ⟨doc.rid, doc.rtype, newPid⟩ =
      db.eraseP isDaemonRec := by
  induction db with
  | nil => exact Option.noConfusion hfind
  | cons a tl ih =>
    have hnodup' := List.nodup_cons.mp hnodup
    by_cases ha : isDaemonRec a
    · have hdoc : doc = a := by
        rw [List.find?_cons_of_pos _ ha] at hfind
        exact (Option.some.inj hfind).symm
      subst hdoc
      rw [List.eraseP_cons_of_pos ha]
      unfold dbUpdateById
      rw [List.map_congr_left, List.map_id]
      intro r hr
      have hrne : r.rid ≠ doc.rid := by
        intro he
        exact hnodup'.1 (he ▸ List.mem_map_of_mem DbRecord.rid hr)
      simp [hrne]
    · have hfind' : tl.find? isDaemonRec = some doc := by
        rw [List.find?_cons_of_neg _ ha] at hfind
        exact hfind
      have hdocmem : doc ∈ tl := List.mem_of_find?_eq_some hfind'
      have hane : a.rid ≠ doc.rid := by
        intro he
        exact hnodup'.1 (he ▸ List.mem_map_of_mem DbRecord.rid hdocmem)
      rw [List.eraseP_cons_of_neg ha]
      have hih := ih hfind' hnodup'.2
      unfold dbUpdateById
      simp only [List.map_cons]
      rw [show ((if a.rid == doc.rid then (⟨doc.rid, doc.rtype, newPid⟩ : DbRecord)
          else a) = a) from by simp [hane]]
      unfold dbUpdateById at hih
      rw [hih]

/-- C8 as stated is false on the code: in a concrete session that passes
pre-flight with a prior record whose kill succeeds, a process is spawned
yet the store ends with zero records of the daemon kind — the save
callback's lookup still observed the old record (the remove was queued
behind it on the store executor), so it queued an update by the old
document's id, which the remove had deleted by the time the update ran. -/
theorem C8_counterexample :
    ((runPreChecks envKillOk.pre).1).result = true ∧
    (startLocalRun envKillOk).spawned = some ("daemons/reddcoind-linux64", 4321) ∧
    countDaemon (startLocalRun envKillOk).finalDb = 0 := by
  decide

/-- C8 amended: the save is an upsert on the state its lookup observes
(insert when none, overwrite the pid otherwise, never duplicating) and
after a successful spawn the store holds exactly one daemon record
carrying the new pid when no prior record existed or when the stale kill
failed; but when a prior record existed and its kill succeeded, the
remove queued by the kill callback executes between the save's lookup
and its update, deletes the record the update targets, and the store
ends with zero daemon records. -/
theorem C8_pid_record_amended (env : SessionEnv) (p : String)
    (hp : (runPreChecks env.pre).2 = some p)
    (hpre : ((runPreChecks env.pre).1).result = true)
    (hnodup : (env.db.map DbRecord.rid).Nodup)
    (hcount : countDaemon env.db ≤ 1) :
    (findOneDaemon env.db = none →
      countDaemon (startLocalRun env).finalDb = 1 ∧
      ∀ r ∈ (startLocalRun env).finalDb, isDaemonRec r = true → r.pid = env.newPid) ∧
    (∀ doc, findOneDaemon env.db = some doc → env.killOk doc.pid = false →
      countDaemon (startLocalRun env).finalDb = 1 ∧
      ∀ r ∈ (startLocalRun env).finalDb, isDaemonRec r = true → r.pid = env.newPid) ∧
    (∀ doc, findOneDaemon env.db = some doc → env.killOk doc.pid = true →
      countDaemon (startLocalRun env).finalDb = 0) ∧
    (startLocalRun env).spawned = some (p, env.newPid) := by
  have hfdb : (startLocalRun env).finalDb =
      sessionFinalDb env.db env.killOk env.newPid env.freshId := by
    simp [startLocalRun, hpre, hp]
  have hsp : (startLocalRun env).spawned = some (p, env.newPid) := by
    simp [startLocalRun, hpre, hp]
  refine ⟨?_, ?_, ?_, hsp⟩
  · intro hnone
    have heq : sessionFinalDb env.db env.killOk env.newPid env.freshId =
        saveDaemonPid env.db env.newPid env.freshId := by
      unfold sessionFinalDb saveDaemonPid
      rw [hnone]
    rw [hfdb, heq]
    exact saveDaemonPid_spec env.db env.newPid env.freshId hnodup hcount
  · intro doc hdoc hkf
    have heq : sessionFinalDb env.db env.killOk env.newPid env.freshId =
        saveDaemonPid env.db env.newPid env.freshId := by
      unfold sessionFinalDb saveDaemonPid
      rw [hdoc]
      simp [hkf]
    rw [hfdb, heq]
    exact saveDaemonPid_spec env.db env.newPid env.freshId hnodup hcount
  · intro doc hdoc hkt
    have heq : sessionFinalDb env.db env.killOk env.newPid env.freshId =
        dbUpdateById (dbRemoveDaemon env.db) doc.rid ⟨doc.rid, doc.rtype, env.newPid⟩ := by
      unfold sessionFinalDb
      rw [hdoc]
      simp [hkt]
    rw [hfdb, heq]
    have hupd := update_erase_id env.db doc env.newPid hdoc hnodup
    unfold dbRemoveDaemon
    rw [hupd]
    unfold countDaemon
    rw [List.countP_eq_zero]
    intro r hr
    have hnd := List.find?_eq_none.mp (find_eraseP_none env.db doc hdoc hcount) r hr
    simpa using hnd

/-- Witness for the amended C8 exercising all three branches at concrete
sessions: a stale record whose kill fails keeps one record with the new
pid, no prior record ends with one inserted record, and a stale record
whose kill succeeds ends with zero records. -/
theorem C8_pid_record_amended_witness :
    countDaemon (startLocalRun env0).finalDb = 1 ∧
    countDaemon (startLocalRun envNoPrior).finalDb = 1 ∧
    countDaemon (startLocalRun envKillOk).finalDb = 0 :=
  ⟨((C8_pid_record_amended env0 "daemons/reddcoind-linux64"
      (by decide) (by decide) (by decide) (by decide)).2.1
      ⟨1, "daemon", 1234⟩ (by decide) (by decide)).1,
   ((C8_pid_record_amended envNoPrior "daemons/reddcoind-linux64"
      (by decide) (by decide) (by decide) (by decide)).1 (by decide)).1,
   (C8_pid_record_amended envKillOk "daemons/reddcoind-linux64"
      (by decide) (by decide) (by decide) (by decide)).2.2.1
      ⟨1, "daemon", 1234⟩ (by decide) (by decide)⟩

/-- C9: after a successful spawn the repeating interval is registered
with the fixed 15 * 1000 period and a body that publishes the block
notification unconditionally, the stdout data listener publishes the
block notification on every data event, and in the steady-state model
the notification is published at every interval multiple even when no
stdout data ever arrives, and also at every instant a stdout data event
arrives. -/
theorem C9_recurring_activity (env : SessionEnv)
    (hpre : ((runPreChecks env.pre).1).result = true) :
    (startLocalRun env).intervalPeriod = some (15 * 1000) ∧
    (startLocalRun env).intervalBody = [Action.blockTick] ∧
    (startLocalRun env).stdoutBody =
      [Action.debugLog "Received daemon data from stdout", Action.blockTick] ∧
    (∀ sd : Nat → Bool, ∀ k : Nat, blockPublishedAt sd ((15 * 1000) * (k + 1)) = true) ∧
    (∀ sd : Nat → Bool, ∀ t : Nat, sd t = true → blockPublishedAt sd t = true) := by
  obtain ⟨p, hp2, _⟩ := runPreChecks_true_some env.pre hpre
  refine ⟨?_, ?_, ?_, ?_, ?_⟩
  · simp [startLocalRun, hpre, hp2]
  · simp [startLocalRun, hpre, hp2, intervalBodyActions]
  · simp [startLocalRun, hpre, hp2, stdoutDataBody]
  · intro sd k
    have h1 : 0 < (15 * 1000) * (k + 1) := Nat.mul_pos (by norm_num) (Nat.succ_pos k)
    simp only [blockPublishedAt, intervalFires, Bool.or_eq_true, Bool.and_eq_true,
      decide_eq_true_eq]
    exact Or.inl ⟨h1, Nat.mul_mod_right _ _⟩
  · intro sd t h
    simp [blockPublishedAt, h]

/-- Witness for C9 at a concrete session: the interval is registered
with period 15 * 1000, the first interval tick publishes even with no
stdout data, and a stdout data event at time 77 publishes there. -/
theorem C9_recurring_activity_witness :
    (startLocalRun envKillOk).intervalPeriod = some (15 * 1000) ∧
    blockPublishedAt (fun _ => false) (15 * 1000) = true ∧
    blockPublishedAt (fun t => t == 77) 77 = true := by
  refine ⟨(C9_recurring_activity envKillOk (by decide)).1, ?_, ?_⟩
  · have h := (C9_recurring_activity envKillOk (by decide)).2.2.2.1 (fun _ => false) 0
    simpa using h
  · exact (C9_recurring_activity envKillOk (by decide)).2.2.2.2 (fun t => t == 77) 77 (by decide)

end Reddwallet
